import Mathlib

/-!
Verification of the Nebenuhr slave-clock drive engine (src/main.cpp).

The definitions below are a shallow embedding of the firmware's clock-drive
core: the convergence tick inside loop(), the pulse generator and position
tracker advance(), the time-source adapter setCurrentTime(), and the HTTP
form handler handleSet().  The int16_t globals currentDisplayedTime and
currentTime are modelled as Int (every value they take in the firmware fits
comfortably in int16_t, so no truncation is modelled); the C++ truncating
% operator is modelled explicitly by cppRem.
-/

namespace Nebenuhr

/-- The two drive output lines, OUT1 (pin D3) and OUT2 (pin D4). -/
inductive Line where
  | OUT1
  | OUT2
  deriving DecidableEq, Repr

/-- C++ truncating remainder (the built-in % of C++11 and later) for a
positive modulus: the result carries the sign of the dividend. -/
def cppRem (a b : Int) : Int :=
  if 0 ≤ a then a % b else -((-a) % b)

/-- The PWM step table STEPS declared inside advance(). -/
def STEPS : List Nat := [0, 4, 8, 16, 32, 64, 128, 192, 255]

/-- The line that advance() ramps (analogWrite target), selected inside the
ramp loop from the parity of the pre-pulse currentDisplayedTime:
`currentDisplayedTime % 2 == 0` chooses OUT1, otherwise OUT2. -/
def activeLine (d : Int) : Line :=
  if cppRem d 2 = 0 then Line.OUT1 else Line.OUT2

/-- The line advance() holds at logic high during the ramp (the one that is
not ramped). -/
def idleLine (d : Int) : Line :=
  if cppRem d 2 = 0 then Line.OUT2 else Line.OUT1

/-- A hardware-visible event of one pulse: an analogWrite of an 8-bit value,
a digitalWrite of a logic level, or a delay of some milliseconds. -/
inductive PulseEv where
  | analogWrite (l : Line) (v : Nat)
  | digitalWrite (l : Line) (high : Bool)
  | delay (ms : Nat)
  deriving DecidableEq, Repr

/-- One iteration of the ramp loop of advance() at step value `s`: the even
branch performs `analogWrite(OUT1, 255 - STEPS[x]); digitalWrite(OUT2, HIGH)`,
the odd branch `digitalWrite(OUT1, HIGH); analogWrite(OUT2, 255 - STEPS[x])`,
each followed by `delay(30)`. -/
def rampIter (d : Int) (s : Nat) : List PulseEv :=
  if cppRem d 2 = 0 then
    [PulseEv.analogWrite Line.OUT1 (255 - s), PulseEv.digitalWrite Line.OUT2 true,
      PulseEv.delay 30]
  else
    [PulseEv.digitalWrite Line.OUT1 true, PulseEv.analogWrite Line.OUT2 (255 - s),
      PulseEv.delay 30]

/-- The full event trace of one pulse of advance(), starting from displayed
minute `d`: the nine ramp iterations, then `delay(200)`, then both lines are
driven low. -/
def pulseEvents (d : Int) : List PulseEv :=
  STEPS.flatMap (rampIter d) ++
    [PulseEv.delay 200, PulseEv.digitalWrite Line.OUT1 false,
      PulseEv.digitalWrite Line.OUT2 false]

/-- The analog writes of a pulse trace, in order, as (line, value) pairs. -/
def analogTrace : List PulseEv → List (Line × Nat)
  | [] => []
  | PulseEv.analogWrite l v :: rest => (l, v) :: analogTrace rest
  | _ :: rest => analogTrace rest

/-- The digital writes of a pulse trace, in order, as (line, level) pairs. -/
def digitalTrace : List PulseEv → List (Line × Bool)
  | [] => []
  | PulseEv.digitalWrite l h :: rest => (l, h) :: digitalTrace rest
  | _ :: rest => digitalTrace rest

/-- The delay durations of a pulse trace, in order. -/
def delayTrace : List PulseEv → List Nat
  | [] => []
  | PulseEv.delay ms :: rest => ms :: delayTrace rest
  | _ :: rest => delayTrace rest

/-- Total milliseconds spent in delays over a pulse trace. -/
def totalDelay (es : List PulseEv) : Nat := (delayTrace es).sum

/-- Stated from the spec's words, for comparison with the source-derived
trace: the nine inverted-duty analog values the active line is claimed to
step through, in order. -/
def specRampValues : List Nat := [255, 251, 247, 239, 223, 191, 127, 63, 0]

/-- The position-tracker update at the end of advance():
`currentDisplayedTime++` followed by the `>= 1440` midnight-rollover wrap. -/
def advance (d : Int) : Int :=
  if d + 1 ≥ 1440 then d + 1 - 1440 else d + 1

/-- The time-source adapter setCurrentTime(), as a function of the
zone-projected local hour, minute and second:
`currentTime = minute + hour * 60`, then `+ 1` when `second == 59`.
There is no modulo reduction in the source. -/
def setCurrentTime (hour minute second : Int) : Int :=
  minute + hour * 60 + (if second = 59 then 1 else 0)

/-- One convergence tick (the runEvery<1000> lambda in loop()), as a function
of the displayed minute `d` and the target minute `t`.  Returns the new
displayed minute and whether a pulse was emitted on this tick. -/
def tick (d t : Int) : Int × Bool :=
  if d = t then (d, false)
  else if d < t then (advance d, true)
  else if d > t + 10 then (d - 1440, false)
  else (d, false)

/-- Iterating the convergence tick `n` times against a fixed target `t`. -/
def tickIter (t : Int) : Int → Nat → Int
  | d, 0 => d
  | d, n + 1 => tickIter t (tick d t).1 n

/-- An externally triggered action on the displayed minute: a convergence
tick against target `t`, or an operator POST /set carrying hour and minute. -/
inductive Act where
  | tick (t : Int)
  | opSet (hour minute : Int)
  deriving DecidableEq, Repr

/-- Whether an action is a convergence tick (no operator override). -/
def isTick : Act → Bool
  | Act.tick _ => true
  | Act.opSet _ _ => false

/-- Running a sequence of actions from displayed minute `d`: returns the
final displayed minute together with the list of active lines of the pulses
emitted, in order.  A tick with `d < t` emits one pulse whose active line is
read from the pre-advance displayed minute (as in advance()); an operator
override stores `(hour * 60 + minute) % 1440` with the C++ truncating `%`
(as in handleSet()). -/
def run (d : Int) : List Act → Int × List Line
  | [] => (d, [])
  | Act.tick t :: rest =>
    let r := tick d t
    let rr := run r.1 rest
    (rr.1, (if r.2 then [activeLine d] else []) ++ rr.2)
  | Act.opSet h m :: rest =>
    run (cppRem (h * 60 + m) 1440) rest

/-- The active timezone object (the global localZone): either a resolved
zone with its zone id, or AceTime's error TimeZone. -/
inductive ZoneState where
  | valid (zid : Nat)
  | error
  deriving DecidableEq, Repr

/-- The collaborator call zoneManager.createForZoneIndex(idx): the registry
is modelled as a map from zone indexes to zone ids, `none` meaning the index
does not resolve and the error TimeZone is returned. -/
def createForZoneIndex (registry : Int → Option Nat) (idx : Int) : ZoneState :=
  match registry idx with
  | some zid => ZoneState.valid zid
  | none => ZoneState.error

/-- The firmware state touched by handleSet(): the displayed minute, the
active zone (localZone) and the persisted zone id (globalStats.zoneId, which
is what EEPROM.put writes). -/
structure ClockState where
  displayedTime : Int
  activeZone : ZoneState
  persistedZoneId : Nat
  deriving DecidableEq, Repr

/-- The POST /set handler handleSet(): stores
`(hour * 60 + minute) % 1440` into currentDisplayedTime, unconditionally
assigns `localZone = zoneManager.createForZoneIndex(zoneIdx)`, persists the
zone id only when that zone is not the error zone, and answers with a 302
redirect to "/". -/
def handleSet (registry : Int → Option Nat) (st : ClockState)
    (hour minute zoneIdx : Int) : ClockState × Nat × String :=
  let d := cppRem (hour * 60 + minute) 1440
  let z := createForZoneIndex registry zoneIdx
  let persisted :=
    match z with
    | ZoneState.valid zid => zid
    | ZoneState.error => st.persistedZoneId
  (⟨d, z, persisted⟩, 302, "/")

/-- Reachable values of currentDisplayedTime: initialized at boot to the
first currentTime reading (`currentDisplayedTime = currentTime`, a value
setCurrentTime can produce, i.e. in [0, 1440]), and mutated by convergence
ticks (against targets setCurrentTime can produce) and by operator
overrides via handleSet with arbitrary integer form fields. -/
inductive Reachable : Int → Prop
  | init (t : Int) (h0 : 0 ≤ t) (h1 : t ≤ 1440) : Reachable t
  | tickStep {d : Int} (t : Int) (h0 : 0 ≤ t) (h1 : t ≤ 1440) (hd : Reachable d) :
      Reachable (tick d t).1
  | opSetStep {d : Int} (hour minute : Int) (hd : Reachable d) :
      Reachable (cppRem (hour * 60 + minute) 1440)

/-! Helper lemmas about parity and the active line. -/

/-- The truncating remainder by 2 vanishes exactly on even integers. -/
theorem cppRem_two_eq_zero_iff (d : Int) : cppRem d 2 = 0 ↔ d % 2 = 0 := by
  unfold cppRem
  split_ifs <;> omega

/-- The active line depends only on the parity of the displayed minute. -/
theorem activeLine_congr {d e : Int} (h : d % 2 = e % 2) :
    activeLine d = activeLine e := by
  unfold activeLine
  have hd := cppRem_two_eq_zero_iff d
  have he := cppRem_two_eq_zero_iff e
  split_ifs with h1 h2 h2
  · rfl
  · exact absurd (he.mpr (by omega)) h2
  · exact absurd (hd.mpr (by omega)) h1
  · rfl

/-- Displayed minutes of opposite parity select different active lines. -/
theorem activeLine_ne {d e : Int} (h : d % 2 ≠ e % 2) :
    activeLine d ≠ activeLine e := by
  unfold activeLine
  have hd := cppRem_two_eq_zero_iff d
  have he := cppRem_two_eq_zero_iff e
  split_ifs with h1 h2 h2
  · exfalso; have := hd.mp h1; have := he.mp h2; omega
  · simp
  · simp
  · exfalso
    have p1 : ¬d % 2 = 0 := fun hh => h1 (hd.mpr hh)
    have p2 : ¬e % 2 = 0 := fun hh => h2 (he.mpr hh)
    omega

/-- Rebasing by a full day (1440 minutes, an even number) does not change
the active line. -/
theorem activeLine_sub_1440 (d : Int) : activeLine (d - 1440) = activeLine d :=
  activeLine_congr (by omega)

/-- A successful advance flips the active line: the new displayed minute is
d + 1 or d + 1 - 1440, both of opposite parity to d. -/
theorem activeLine_advance (d : Int) : activeLine (advance d) ≠ activeLine d := by
  unfold advance
  split_ifs <;> exact activeLine_ne (by omega)

/-- A tick that produces a pulse leaves the tracker advanced by advance(). -/
theorem tick_pulse_eq (d t : Int) (h : (tick d t).2 = true) :
    (tick d t).1 = advance d := by
  unfold tick at *
  split_ifs at h ⊢ <;> simp_all

/-- A tick without a pulse preserves the active line of the displayed
minute: it either leaves d unchanged or rebases it by 1440. -/
theorem tick_no_pulse_line (d t : Int) (h : (tick d t).2 = false) :
    activeLine (tick d t).1 = activeLine d := by
  unfold tick at *
  split_ifs at h ⊢ <;> simp_all
  exact activeLine_sub_1440 d

/-! Claim C2: polarity selection of a pulse. -/

/-- C2 counterexample: the claim states that a pulse starting from
DisplayedMinute = 600 (target 601) ramps OUT2; in the code the parity test
`currentDisplayedTime % 2 == 0` reads the pre-pulse minute, 600 is even, and
the ramped line is OUT1, not OUT2. -/
theorem c2_counterexample :
    activeLine 600 = Line.OUT1 ∧ Line.OUT1 ≠ Line.OUT2 := by
  constructor
  · rfl
  · simp

/-- C2 amended: if the minute that will be displayed after the pulse
completes (DisplayedMinute + 1) is even, OUT2 is the active ramped line (and
OUT1 is held high); if that next minute is odd, OUT1 is the active ramped
line (and OUT2 is held high).  Equivalently, the code keys the choice on the
parity of the pre-pulse DisplayedMinute: even ramps OUT1, odd ramps OUT2.
In particular a pulse starting from DisplayedMinute = 600 ramps OUT1. -/
theorem c2_polarity_selection (d : Int) :
    activeLine d = (if (d + 1) % 2 = 0 then Line.OUT2 else Line.OUT1) ∧
      idleLine d = (if (d + 1) % 2 = 0 then Line.OUT1 else Line.OUT2) := by
  have hd := cppRem_two_eq_zero_iff d
  unfold activeLine idleLine
  constructor
  · split_ifs with h1 h2 h2
    · exfalso; have := hd.mp h1; omega
    · rfl
    · rfl
    · exfalso
      have p1 : ¬d % 2 = 0 := fun hh => h1 (hd.mpr hh)
      omega
  · split_ifs with h1 h2 h2
    · exfalso; have := hd.mp h1; omega
    · rfl
    · rfl
    · exfalso
      have p1 : ¬d % 2 = 0 := fun hh => h1 (hd.mpr hh)
      omega

/-! Claim C3: the time-source adapter. -/

/-- C3 counterexample: at local time 23:59:59 the code computes
`59 + 23 * 60 + 1 = 1440` with no modulo reduction, so the returned target
minute does not lie in [0, 1440). -/
theorem c3_counterexample :
    setCurrentTime 23 59 59 = 1440 ∧ ¬(setCurrentTime 23 59 59 < 1440) := by
  constructor
  · rfl
  · simp [setCurrentTime]

/-- C3 amended: for every valid zone-projected local time (hour in [0, 23],
minute in [0, 59], second in [0, 59]), setCurrentTime returns
hour * 60 + minute, incremented by 1 when the second-of-minute equals 59,
with no modulo reduction; the value lies in [0, 1440] and reaches 1440
exactly at local time 23:59:59. -/
theorem c3_target_minute (hour minute second : Int)
    (hh0 : 0 ≤ hour) (hh1 : hour ≤ 23)
    (hm0 : 0 ≤ minute) (hm1 : minute ≤ 59)
    (hs0 : 0 ≤ second) (hs1 : second ≤ 59) :
    setCurrentTime hour minute second
        = hour * 60 + minute + (if second = 59 then 1 else 0) ∧
      0 ≤ setCurrentTime hour minute second ∧
      setCurrentTime hour minute second ≤ 1440 ∧
      (setCurrentTime hour minute second = 1440 ↔
        hour = 23 ∧ minute = 59 ∧ second = 59) := by
  unfold setCurrentTime
  split_ifs <;> refine ⟨by omega, by omega, by omega, ?_⟩ <;> omega

/-- C3 amended, witnessed at the spec's own boundary example: local time
12:34:59 yields target minute 755. -/
theorem c3_target_minute_witness :
    setCurrentTime 12 34 59
        = 12 * 60 + 34 + (if (59 : Int) = 59 then 1 else 0) ∧
      0 ≤ setCurrentTime 12 34 59 ∧
      setCurrentTime 12 34 59 ≤ 1440 ∧
      (setCurrentTime 12 34 59 = 1440 ↔
        (12 : Int) = 23 ∧ (34 : Int) = 59 ∧ (59 : Int) = 59) :=
  c3_target_minute 12 34 59 (by omega) (by omega) (by omega) (by omega)
    (by omega) (by omega)

/-! Claim C5: the position tracker's advance. -/

/-- C5: for every DisplayedMinute in [0, 1440), one successful advance()
updates it to (DisplayedMinute + 1) mod 1440; in particular 1439 advances
to 0. -/
theorem c5_advance_mod (d : Int) (h0 : 0 ≤ d) (h1 : d < 1440) :
    advance d = (d + 1) % 1440 ∧ advance 1439 = 0 := by
  refine ⟨?_, rfl⟩
  unfold advance
  split_ifs <;> omega

/-- C5 witnessed at the midnight rollover: 1439 advances to
(1439 + 1) % 1440 = 0. -/
theorem c5_advance_mod_witness :
    advance 1439 = (1439 + 1) % 1440 ∧ advance 1439 = 0 :=
  c5_advance_mod 1439 (by omega) (by omega)

/-! Claim C1: the convergence tick decision table. -/

/-- C1: for every tick, with D the displayed and T the target minute: D = T
emits no pulse and leaves D unchanged; D < T emits exactly one pulse and
advances D via advance() (by exactly one whenever D + 1 < 1440); T < D with
D ≤ T + 10 emits no pulse and leaves D unchanged; D > T + 10 rebases D to
D - 1440 with no pulse on that tick. -/
theorem c1_tick_decision (d t : Int) :
    (d = t → tick d t = (d, false)) ∧
    (d < t → tick d t = (advance d, true) ∧ (d + 1 < 1440 → (tick d t).1 = d + 1)) ∧
    (t < d → d ≤ t + 10 → tick d t = (d, false)) ∧
    (t + 10 < d → tick d t = (d - 1440, false)) := by
  refine ⟨?_, ?_, ?_, ?_⟩
  · intro h
    simp [tick, h]
  · intro h
    have h1 : ¬d = t := by omega
    refine ⟨by simp [tick, h1, h], ?_⟩
    intro h2
    simp [tick, h1, h, advance]
    omega
  · intro h1 h2
    have e1 : ¬d = t := by omega
    have e2 : ¬d < t := by omega
    have e3 : ¬d > t + 10 := by omega
    simp [tick, e1, e2, e3]
  · intro h
    have e1 : ¬d = t := by omega
    have e2 : ¬d < t := by omega
    simp [tick, e1, e2, h]

/-- C1 witnessed on one concrete input per branch of the decision table:
(600, 600) idles, (600, 601) pulses and advances, (605, 600) idles inside
the 10-minute window, (800, 600) rebases by 1440. -/
theorem c1_tick_decision_witness :
    tick 600 600 = (600, false) ∧
    tick 600 601 = (advance 600, true) ∧
    tick 605 600 = (605, false) ∧
    tick 800 600 = (800 - 1440, false) :=
  ⟨(c1_tick_decision 600 600).1 rfl,
    ((c1_tick_decision 600 601).2.1 (by omega)).1,
    (c1_tick_decision 605 600).2.2.1 (by omega) (by omega),
    (c1_tick_decision 800 600).2.2.2 (by omega)⟩

/-! Claim C4: the pulse waveform. -/

/-- C4: in every pulse the active line's analog writes step through exactly
the nine inverted-duty values 255, 251, 247, 239, 223, 191, 127, 63, 0 in
that order; the digital writes hold the idle line high for the nine ramp
steps and end by driving OUT1 and OUT2 low; the delays are nine 30 ms holds
followed by a 200 ms hold, for a total of 470 ms before release. -/
theorem c4_pulse_waveform (d : Int) :
    analogTrace (pulseEvents d) = specRampValues.map (fun v => (activeLine d, v)) ∧
    digitalTrace (pulseEvents d)
        = List.replicate 9 (idleLine d, true) ++ [(Line.OUT1, false), (Line.OUT2, false)] ∧
    delayTrace (pulseEvents d) = List.replicate 9 30 ++ [200] ∧
    totalDelay (pulseEvents d) = 470 := by
  by_cases h : cppRem d 2 = 0
  · have ha : activeLine d = Line.OUT1 := by simp [activeLine, h]
    have hi : idleLine d = Line.OUT2 := by simp [idleLine, h]
    have hp : pulseEvents d
        = STEPS.flatMap (fun s =>
            [PulseEv.analogWrite Line.OUT1 (255 - s), PulseEv.digitalWrite Line.OUT2 true,
              PulseEv.delay 30]) ++
          [PulseEv.delay 200, PulseEv.digitalWrite Line.OUT1 false,
            PulseEv.digitalWrite Line.OUT2 false] := by
      unfold pulseEvents
      congr 1
      congr 1
      funext s
      simp [rampIter, h]
    rw [hp, ha, hi]
    decide
  · have ha : activeLine d = Line.OUT2 := by simp [activeLine, h]
    have hi : idleLine d = Line.OUT1 := by simp [idleLine, h]
    have hp : pulseEvents d
        = STEPS.flatMap (fun s =>
            [PulseEv.digitalWrite Line.OUT1 true, PulseEv.analogWrite Line.OUT2 (255 - s),
              PulseEv.delay 30]) ++
          [PulseEv.delay 200, PulseEv.digitalWrite Line.OUT1 false,
            PulseEv.digitalWrite Line.OUT2 false] := by
      unfold pulseEvents
      congr 1
      congr 1
      funext s
      simp [rampIter, h]
    rw [hp, ha, hi]
    decide

/-! Claim C6: range of the displayed minute at tick boundaries. -/

/-- C6 counterexample: starting from displayed minute 800 (reachable: it is
a value setCurrentTime can produce at boot), one tick against target 600
rebases the tracker to -640, so `0 ≤ DisplayedMinute` fails at the next
tick boundary. -/
theorem c6_counterexample :
    Reachable (-640) ∧ ¬(0 ≤ (-640 : Int) ∧ (-640 : Int) < 1440) := by
  constructor
  · have h800 : Reachable 800 := Reachable.init 800 (by omega) (by omega)
    have h := Reachable.tickStep 600 (by omega) (by omega) h800
    have e : (tick 800 600).1 = -640 := by decide
    rwa [e] at h
  · omega

/-- C6 amended: every reachable value of DisplayedMinute satisfies
-1440 < DisplayedMinute ≤ 1440.  It lies in [0, 1440) except transiently:
it is negative from a rebase until catch-up completes, and it can be 1440
when initialized (or targeted) during the last second 23:59:59. -/
theorem c6_displayed_range (d : Int) (h : Reachable d) : -1440 < d ∧ d ≤ 1440 := by
  induction h with
  | init t h0 h1 => omega
  | tickStep t h0 h1 hd ih =>
    unfold tick advance
    split_ifs <;> dsimp only <;> omega
  | opSetStep hour minute hd ih =>
    unfold cppRem
    split_ifs <;> omega

/-- C6 amended, witnessed at the reachable boot state 0. -/
theorem c6_displayed_range_witness : (-1440 : Int) < 0 ∧ (0 : Int) ≤ 1440 :=
  c6_displayed_range 0 (Reachable.init 0 (by omega) (by omega))

/-! Claim C8: range normalization of the operator override. -/

/-- C8 counterexample: a POST /set with hour = -1, minute = 0 stores
`(-60) % 1440 = -60` (C++ truncating remainder), a negative displayed
minute, so the stored value does not lie in [0, 1440). -/
theorem c8_counterexample :
    (handleSet (fun _ => none) ⟨0, ZoneState.error, 0⟩ (-1) 0 0).1.displayedTime
        = -60 ∧
      (handleSet (fun _ => none) ⟨0, ZoneState.error, 0⟩ (-1) 0 0).1.displayedTime
        < 0 := by
  constructor <;> decide

/-- C8 amended: handleSet stores `(hour * 60 + minute) % 1440` with the C++
truncating remainder: when hour * 60 + minute is nonnegative (which covers
all form values in and above the nominal ranges) the result is the
mathematical modulo and lies in [0, 1440), and in particular hour = 24,
minute = 0 yields 0; when hour * 60 + minute is negative the stored value is
negative, in (-1440, 0]. -/
theorem c8_set_displayed_range (registry : Int → Option Nat) (st : ClockState)
    (hour minute zoneIdx : Int) :
    (0 ≤ hour * 60 + minute →
        (handleSet registry st hour minute zoneIdx).1.displayedTime
            = (hour * 60 + minute) % 1440 ∧
          0 ≤ (handleSet registry st hour minute zoneIdx).1.displayedTime ∧
          (handleSet registry st hour minute zoneIdx).1.displayedTime < 1440) ∧
      (hour * 60 + minute < 0 →
        -1440 < (handleSet registry st hour minute zoneIdx).1.displayedTime ∧
          (handleSet registry st hour minute zoneIdx).1.displayedTime ≤ 0) ∧
      (hour = 24 → minute = 0 →
        (handleSet registry st hour minute zoneIdx).1.displayedTime = 0) := by
  have e : (handleSet registry st hour minute zoneIdx).1.displayedTime
      = cppRem (hour * 60 + minute) 1440 := rfl
  refine ⟨?_, ?_, ?_⟩
  · intro h
    rw [e]
    unfold cppRem
    split_ifs <;> refine ⟨by omega, by omega, by omega⟩
  · intro h
    rw [e]
    unfold cppRem
    split_ifs <;> constructor <;> omega
  · intro h24 hm0
    subst h24
    subst hm0
    rw [e]
    decide

/-- C8 amended, witnessed at the spec's boundary example: the operator sets
24:00 and the stored displayed minute is 0. -/
theorem c8_set_displayed_range_witness :
    (handleSet (fun _ => none) ⟨0, ZoneState.error, 0⟩ 24 0 0).1.displayedTime = 0 :=
  (c8_set_displayed_range (fun _ => none) ⟨0, ZoneState.error, 0⟩ 24 0 0).2.2 rfl rfl

/-! Claim C9: zone activation and persistence in POST /set. -/

/-- C9 counterexample: with an unresolvable zone index, handleSet still
overwrites the active zone: `localZone = zoneManager.createForZoneIndex(idx)`
is executed unconditionally, so the previously active zone (here the valid
zone with id 5) is replaced by the error zone.  Only the persisted id stays. -/
theorem c9_counterexample :
    (handleSet (fun _ => none) ⟨0, ZoneState.valid 5, 5⟩ 0 0 999).1.activeZone
        = ZoneState.error ∧
      ZoneState.error ≠ ZoneState.valid 5 ∧
      (handleSet (fun _ => none) ⟨0, ZoneState.valid 5, 5⟩ 0 0 999).1.persistedZoneId
        = 5 := by
  refine ⟨rfl, by simp, rfl⟩

/-- C9 amended: if the submitted zone index resolves, the resolved zone is
activated and its id persisted; if it does not resolve, the active zone
becomes the error TimeZone (the previously active zone does not remain in
effect) while the persisted zone id is unchanged; in all cases the response
is a 302 redirect to "/". -/
theorem c9_zone_update (registry : Int → Option Nat) (st : ClockState)
    (hour minute zoneIdx : Int) :
    (∀ zid, registry zoneIdx = some zid →
        (handleSet registry st hour minute zoneIdx).1.activeZone
            = ZoneState.valid zid ∧
          (handleSet registry st hour minute zoneIdx).1.persistedZoneId = zid) ∧
      (registry zoneIdx = none →
        (handleSet registry st hour minute zoneIdx).1.activeZone = ZoneState.error ∧
          (handleSet registry st hour minute zoneIdx).1.persistedZoneId
            = st.persistedZoneId) ∧
      (handleSet registry st hour minute zoneIdx).2.1 = 302 ∧
      (handleSet registry st hour minute zoneIdx).2.2 = "/" := by
  refine ⟨?_, ?_, rfl, rfl⟩
  · intro zid hz
    simp [handleSet, createForZoneIndex, hz]
  · intro hz
    simp [handleSet, createForZoneIndex, hz]

/-- C9 amended, witnessed on a registry that resolves index 1 to zone id 7:
the zone is activated and persisted. -/
theorem c9_zone_update_witness :
    (handleSet (fun _ => some 7) ⟨0, ZoneState.error, 3⟩ 10 5 1).1.activeZone
        = ZoneState.valid 7 ∧
      (handleSet (fun _ => some 7) ⟨0, ZoneState.error, 3⟩ 10 5 1).1.persistedZoneId
        = 7 :=
  (c9_zone_update (fun _ => some 7) ⟨0, ZoneState.error, 3⟩ 10 5 1).1 7 rfl

/-! Claim C7: alternation of consecutive pulses. -/

/-- Key invariant for pulse alternation: over a run of convergence ticks
(no operator overrides) the emitted pulse lines alternate, and the first
pulse of the run uses the active line of the starting displayed minute. -/
theorem run_ticks_key (acts : List Act) :
    ∀ d : Int, acts.all isTick = true →
      List.Chain' (fun a b => a ≠ b) (run d acts).2 ∧
        ∀ l, ((run d acts).2).head? = some l → l = activeLine d := by
  induction acts with
  | nil =>
    intro d _
    constructor
    · simp [run]
    · intro l hl
      simp [run] at hl
  | cons a rest ih =>
    intro d hall
    cases a with
    | opSet h m =>
      exfalso
      simp [isTick] at hall
    | tick t =>
      have hrest : rest.all isTick = true := by
        simpa [isTick] using hall
      cases hp : (tick d t).2 with
      | false =>
        obtain ⟨ihc, ihh⟩ := ih (tick d t).1 hrest
        constructor
        · simpa [run, hp] using ihc
        · intro l hl
          simp only [run, hp] at hl
          have hl' : ((run (tick d t).1 rest).2).head? = some l := by
            simpa using hl
          rw [ihh l hl', tick_no_pulse_line d t hp]
      | true =>
        obtain ⟨ihc, ihh⟩ := ih (tick d t).1 hrest
        constructor
        · have hchain : List.Chain' (fun a b => a ≠ b)
              (activeLine d :: (run (tick d t).1 rest).2) := by
            refine List.chain'_cons'.mpr ⟨?_, ihc⟩
            intro b hb
            rw [ihh b (Option.mem_def.mp hb), tick_pulse_eq d t hp]
            exact (activeLine_advance d).symm
          simpa [run, hp] using hchain
        · intro l hl
          simp [run, hp] at hl
          exact hl.symm

/-- C7 counterexample: two consecutive successful pulses with an operator
override between them can use the same line.  From displayed minute 600
with target 601: a tick pulses OUT1 (600 is even) and advances to 601; the
operator then POSTs 10:00, setting the displayed minute back to 600; the
next tick pulses OUT1 again. -/
theorem c7_counterexample :
    (run 600 [Act.tick 601, Act.opSet 10 0, Act.tick 601]).2
        = [Line.OUT1, Line.OUT1] ∧
      ¬List.Chain' (fun a b => a ≠ b)
        (run 600 [Act.tick 601, Act.opSet 10 0, Act.tick 601]).2 := by
  have e : (run 600 [Act.tick 601, Act.opSet 10 0, Act.tick 601]).2
      = [Line.OUT1, Line.OUT1] := by decide
  refine ⟨e, ?_⟩
  rw [e]
  simp [List.chain'_cons]

/-- C7 amended: for any two consecutive successful pulses of a run that
contains no operator override (convergence ticks only, idles and rebases
included), the active output line of the second pulse differs from that of
the first; an operator override between the pulses can break alternation. -/
theorem c7_alternation (acts : List Act) (d : Int)
    (hticks : acts.all isTick = true) :
    List.Chain' (fun a b => a ≠ b) (run d acts).2 :=
  (run_ticks_key acts d hticks).1

/-- C7 amended, witnessed on a pure catch-up run of three ticks from 600
toward 602 (two pulses, then an idle). -/
theorem c7_alternation_witness :
    List.Chain' (fun a b => a ≠ b)
      (run 600 [Act.tick 602, Act.tick 602, Act.tick 602]).2 :=
  c7_alternation [Act.tick 602, Act.tick 602, Act.tick 602] 600 (by decide)

/-! Claim C10: behaviour after a rebase. -/

/-- A tick strictly below a target that is below 1440 pulses and advances
the displayed minute by exactly one (the ≥ 1440 wrap cannot trigger). -/
theorem tick_pulse_step (d t : Int) (hd : d < t) (ht : t < 1440) :
    tick d t = (d + 1, true) := by
  unfold tick advance
  rw [if_neg (by omega : ¬d = t), if_pos hd, if_neg (by omega : ¬(d + 1 ≥ 1440))]

/-- Iterating the tick from `d` toward a fixed target `t < 1440` walks the
displayed minute up by exactly one per tick: after `k ≤ t - d` ticks the
displayed minute is `d + k`. -/
theorem tickIter_add (k : Nat) :
    ∀ d t : Int, d + k ≤ t → t < 1440 → tickIter t d k = d + k := by
  induction k with
  | zero =>
    intro d t _ _
    simp [tickIter]
  | succ j ih =>
    intro d t h ht
    have hd : d < t := by omega
    have h1 : tick d t = (d + 1, true) := tick_pulse_step d t hd ht
    show tickIter t (tick d t).1 j = d + ((j + 1 : Nat) : Int)
    rw [h1]
    show tickIter t (d + 1) j = d + ((j + 1 : Nat) : Int)
    rw [ih (d + 1) t (by omega) ht]
    omega

/-- C10: a rebase (DisplayedMinute := DisplayedMinute - 1440, emitted by a
tick with D > T + 10) emits no pulse and, since 1440 is even, does not
change which line the next pulse will ramp; advance() on a negative
displayed minute (down to -1429) increments by exactly one without the
≥ 1440 wrap; and with a fixed target T and no operator input every
subsequent tick below T pulses and adds exactly one, so after
T - (D - 1440) ticks the displayed minute equals T. -/
theorem c10_rebase_convergence (d0 t : Int) (h0 : 0 ≤ t) (h1 : t < 1440)
    (h2 : t + 10 < d0) (h3 : d0 ≤ 1440) :
    tick d0 t = (d0 - 1440, false) ∧
      activeLine (d0 - 1440) = activeLine d0 ∧
      (∀ d : Int, -1429 ≤ d → d < 0 → advance d = d + 1) ∧
      (∀ d : Int, d < t → tick d t = (d + 1, true)) ∧
      (∀ k : Nat, (k : Int) ≤ t - (d0 - 1440) →
        tickIter t (d0 - 1440) k = d0 - 1440 + k) ∧
      tickIter t (d0 - 1440) (t - (d0 - 1440)).toNat = t := by
  refine ⟨?_, activeLine_sub_1440 d0, ?_, ?_, ?_, ?_⟩
  · unfold tick
    rw [if_neg (by omega : ¬d0 = t), if_neg (by omega : ¬d0 < t),
      if_pos (by omega : d0 > t + 10)]
  · intro d hd1 hd2
    unfold advance
    rw [if_neg (by omega : ¬(d + 1 ≥ 1440))]
  · intro d hd
    exact tick_pulse_step d t hd h1
  · intro k hk
    exact tickIter_add k (d0 - 1440) t (by omega) h1
  · have hc := tickIter_add (t - (d0 - 1440)).toNat (d0 - 1440) t (by omega) h1
    rw [hc]
    omega

/-- C10 witnessed at the spec's wrap scenario: displayed 800, target 600;
the tick rebases to -640 without a pulse, the active line is unchanged by
the rebase, and 1240 further ticks walk the display to 600. -/
theorem c10_rebase_convergence_witness :
    tick 800 600 = (800 - 1440, false) ∧
      activeLine (800 - 1440) = activeLine 800 ∧
      tickIter 600 (800 - 1440) ((600 : Int) - (800 - 1440)).toNat = 600 := by
  have h := c10_rebase_convergence 800 600 (by omega) (by omega) (by omega) (by omega)
  exact ⟨h.1, h.2.1, h.2.2.2.2.2⟩

end Nebenuhr
